import Mathlib

/-!
Verification of the vica data-preparation core: a shallow embedding of
`vica/tfrecord_maker.py` and `vica/split_and_shred.py`, with theorems about
the serializer, the class-label resolver, the stratified splitter, the
sequence profiler and the contig sampler/fragmenter.

Python integers are modelled as `Nat`/`Int`, Python floats as `ℚ`,
Python exceptions as an explicit `PyExc` error type threaded through
`Except`, and the random draws of `numpy.random` as explicit function
parameters constrained by the documented contract of the numpy call.
-/

namespace Vica

/-- Python exceptions relevant to the embedded code.  `nameError n` models a
`NameError` raised when the bare name `n` is not bound in any enclosing
scope. -/
inductive PyExc where
  | nameError (n : String)
  | calledProcessError (returncode : ℤ)
  | runtimeError
  | indexError
  | assertionError
  deriving DecidableEq, Repr

/-- Whether an exception instance matches the `except RuntimeError` clause:
only `RuntimeError` itself does; `subprocess.CalledProcessError` derives from
`SubprocessError`/`Exception`, not from `RuntimeError`. -/
def isRuntimeError : PyExc → Bool
  | .runtimeError => true
  | _ => false

/-- `try body except <catches>: handler` — the handler runs only when the
raised exception matches the clause; otherwise the exception propagates. -/
def tryExcept (catches : PyExc → Bool) (body : Except PyExc α)
    (handler : Except PyExc α) : Except PyExc α :=
  match body with
  | .ok a => .ok a
  | .error e => if catches e then handler else .error e

/-- `subprocess.run(options, check=True)`: raises `CalledProcessError` on a
nonzero exit status. -/
def subprocessRunCheck (exitcode : ℤ) : Except PyExc Unit :=
  if exitcode = 0 then .ok () else .error (.calledProcessError exitcode)

/-- Python list slice `l[a:b]` for `0 ≤ a ≤ b` (out-of-range bounds clamp). -/
def pySlice (l : List α) (a b : ℕ) : List α := (l.take b).drop a

/-- Python `s.split("|")` on the characters of `s`: splits at every pipe,
keeping empty pieces. -/
def splitPipe : List Char → List (List Char)
  | [] => [[]]
  | c :: rest =>
      let r := splitPipe rest
      if c = '|' then [] :: r
      else (c :: r.headI) :: r.tail

/-! ## tfrecord_maker.join -/

/-- Embedding of `tfrecord_maker.join`: writes the merge file via
`subprocess.run(['join', ...], check=True)` inside
`try: ... except RuntimeError: logging.exception(...)`.  When the handler
runs, the function falls off the end and returns Python `None` (modelled as
`Except.ok none`).  The external process outcome is the `exitcode`
parameter. -/
def join (kmerfile codonfile dtemp : String) (exitcode : ℤ) :
    Except PyExc (Option String) :=
  let mergefile := dtemp ++ "/mergefile.csv"
  let _options := ["join", "-t", ",", "-1", "1", "-2", "1", kmerfile, codonfile]
  tryExcept isRuntimeError
    (match subprocessRunCheck exitcode with
     | .ok _ => .ok (some mergefile)
     | .error e => .error e)
    (.ok none)

/-! ## tfrecord_maker._label_lookup -/

/-- Embedding of `tfrecord_maker._label_lookup`.

`class2labels` is the association `taxid → label` built by
`create_class2labels`; `lin` models `ncbi.get_lineage` on the taxid string.
The `try` block extracts `seqid.split("|")[1]`, intersects the class keys
with the lineage and asserts exactly one match.  The bare `except:` handler
first evaluates `str(taxid)` for the log line — a `NameError` on `taxid`
when the split had no second field — and then `random.randint(0,
len(classdict)-1)`; the module `tfrecord_maker` imports `subprocess, os,
logging, yaml, json, ete3, tensorflow, numpy, vica` and defines no global
`random` or `classdict`, so the name lookup of `random` raises
`NameError`. -/
def labelLookup (class2labels : List (ℕ × ℕ)) (seqid : String)
    (lin : List Char → List ℕ) : Except PyExc ℕ :=
  match (splitPipe seqid.data)[1]? with
  | none =>
      -- IndexError inside the try; handler evaluates str(taxid): unbound
      .error (.nameError "taxid")
  | some taxid =>
      let lineage := lin taxid
      let classtaxid :=
        ((class2labels.map Prod.fst).filter (fun k => decide (k ∈ lineage))).dedup
      if classtaxid.length = 1 then
        .ok ((class2labels.lookup (classtaxid.headI)).getD 0)
      else
        -- AssertionError caught by bare except; log line is fine (taxid
        -- bound) but `random.randint` fails name resolution
        .error (.nameError "random")

/-! ## tfrecord_maker._data_to_tfrecords -/

/-- The fixed-schema record emitted per merge row.  `kmer` and `codon` hold
the raw comma-separated fields selected by the row slicing (the
`np.array(..., dtype='float32')` step converts values only and keeps the
element count). -/
structure TFRecord where
  id : String
  kmer : List String
  codon : List String
  minhash : List String
  hmmer : List String
  label : ℕ
  deriving DecidableEq, Repr

/-- Per-row body of `_data_to_tfrecords`: with `kend =
config.train_eval.kmerlength` and `cend = kend + codonlength`, slices
`kdat = line[1:kend]`, `cdat = line[kend:cend]`, looks up the minhash and
hmmer side maps with the `"nohits"` sentinel, and resolves the label (the
only step that can raise). -/
def rowToRecord (kend cend : ℕ) (minhashMap : List (String × String))
    (hmmerData : List (String × List String))
    (labelOf : String → Except PyExc ℕ) (line : List String) :
    Except PyExc TFRecord :=
  let seqid := line.headI
  let kdat := pySlice line 1 kend
  let cdat := pySlice line kend cend
  let mhlist := match minhashMap.lookup seqid with
    | some v => [v]
    | none => ["nohits"]
  match labelOf seqid with
  | .error e => .error e
  | .ok label =>
      let hmmlist := match hmmerData.lookup seqid with
        | some xs => xs
        | none => ["nohits"]
      .ok ⟨seqid, kdat, cdat, mhlist, hmmlist, label⟩

/-- Loop of `_data_to_tfrecords` over the merge rows, followed by
`logging.info(... .format(i))`.  The counter `i` is bound by
`enumerate(mergedata, 1)` only if the loop body ran at least once; on an
empty merge file the final log statement reads the unbound name `i` and the
function raises `NameError`. -/
def dataToTfrecords (recordOf : List String → Except PyExc TFRecord)
    (rows : List (List String)) : Except PyExc (List TFRecord × ℕ) :=
  match rows.mapM recordOf with
  | .error e => .error e
  | .ok recs =>
      match rows.length with
      | 0 => .error (.nameError "i")
      | n + 1 => .ok (recs, n + 1)

/-! ## split_and_shred._profile_sequences -/

/-- One row of the profile table built by `_profile_sequences`:
`{taxid, taxlevelid, classid, length}` indexed by sequence id. -/
structure ProfileRow where
  taxid : String
  taxlevelid : Option ℕ
  classid : Option ℕ
  length : ℕ
  deriving DecidableEq, Repr

/-- The scan of `_profile_sequences` over the reversed lineage
(`revlinlist`, leaf-to-root): starting from `sltaxon = None` and
`cltaxon = None`, every element whose rank equals `splitlevel` overwrites
`sltaxon`, and every element in `classes` overwrites `cltaxon` — there is
no `break`, so later (more root-ward) matches replace earlier ones. -/
def profileScan (revlinlist : List ℕ) (rankdict : ℕ → String)
    (splitlevel : String) (classes : List ℕ) : Option ℕ × Option ℕ :=
  revlinlist.foldl
    (fun acc item =>
      (if rankdict item = splitlevel then some item else acc.1,
       if item ∈ classes then some item else acc.2))
    (none, none)

/-- Per-key body of `_profile_sequences`: parses `key` as
`prefix|taxid|accession`, reverses the lineage returned by
`ncbi.get_lineage` (root-to-root order) into leaf-to-root order and runs
the scan, producing the profile row. -/
def profileSequence (key : String) (seqlen : ℕ) (lin : List Char → List ℕ)
    (rankdict : ℕ → String) (splitlevel : String) (classes : List ℕ) :
    Option ProfileRow :=
  match (splitPipe key.data)[1]? with
  | none => none
  | some tid =>
      let revlinlist := (lin tid).reverse
      let (sltaxon, cltaxon) := profileScan revlinlist rankdict splitlevel classes
      some ⟨⟨tid⟩, sltaxon, cltaxon, seqlen⟩

/-! ## split_and_shred._split_levels -/

/-- Python `round` (half-to-even) on an exact rational. -/
def pyRound (q : ℚ) : ℤ :=
  if q - ⌊q⌋ = 1 / 2 then (if Even ⌊q⌋ then ⌊q⌋ else ⌊q⌋ + 1) else round q

/-- One entry of the split plan: held-out test taxa, train taxa, and the
count of distinct split-level taxa of the class.  The element type is
`Option ℕ` because the `taxlevelid` column is nullable (sequences whose
lineage lacks the split rank contribute a null to the set). -/
structure SplitEntry where
  test : Finset (Option ℕ)
  train : Finset (Option ℕ)
  total : ℕ
  deriving DecidableEq

/-- `set(dff['taxlevelid'])` for `dff = df[df.classid == taxid]`. -/
def classids (df : List ProfileRow) (taxid : ℕ) : Finset (Option ℕ) :=
  ((df.filter (fun r => r.classid = some taxid)).map (·.taxlevelid)).toFinset

/-- `round(clength * testfrac)` as used for the `numpy.random.choice`
sample size. -/
def testSize (df : List ProfileRow) (taxid : ℕ) (testfrac : ℚ) : ℕ :=
  (pyRound ((classids df taxid).card * testfrac)).toNat

/-- Per-class body of `_split_levels`.  `pick s n` stands in for
`set(numpy.random.choice(a=list(s), size=n, replace=False))`, the only
randomness in the function. -/
def splitLevelsClass (testfrac : ℚ) (df : List ProfileRow)
    (pick : Finset (Option ℕ) → ℕ → Finset (Option ℕ)) (taxid : ℕ) :
    SplitEntry :=
  let cids := classids df taxid
  let clength := cids.card
  let testids := pick cids (testSize df taxid testfrac)
  let trainids := cids \ testids
  ⟨testids, trainids, clength⟩

/-- `_split_levels`: the split plan maps every class taxid to its entry. -/
def splitLevels (testfrac : ℚ) (df : List ProfileRow)
    (pick : Finset (Option ℕ) → ℕ → Finset (Option ℕ)) (classes : List ℕ) :
    List (ℕ × SplitEntry) :=
  classes.map (fun c => (c, splitLevelsClass testfrac df pick c))

/-! ## split_and_shred._select_contigs -/

/-- A fragment written by `writeseq`: source record name, start, end, and
the window `record[pos:endpos]`. -/
structure Fragment where
  name : String
  pos : ℕ
  endpos : ℕ
  window : List Char
  deriving DecidableEq, Repr

/-- One drawn sequence name inside the `for name in testvect` loop of
`process_examples`: the draw writes a fragment iff `seq_length > length`
and the extracted window's N-fraction `count/length` is strictly below
0.1.  `rnd n` stands in for `numpy.random.choice(n)`, uniform on
`[0, n)`. -/
def drawResult (length : ℕ) (rnd : ℕ → ℕ) (content : List Char)
    (name : String) : Option Fragment :=
  if length < content.length then
    let pos := rnd (content.length - length)
    let endpos := pos + length
    let window := pySlice content pos endpos
    if ((window.count 'N' : ℚ) / (length : ℚ)) < 1 / 10 then
      some ⟨name, pos, endpos, window⟩
    else none
  else none

/-- The `for name in testvect` loop of `process_examples`, threaded with the
draw index for the random-offset oracle.  Returns the fragments written in
order, the per-call `recs_written` counter, and the `tot_recs`
contribution; the source increments `recs_written += 1` but
`tot_recs += 0`. -/
def processDraws (length : ℕ) (seqs : String → List Char)
    (randPos : ℕ → ℕ → ℕ) : List String → ℕ → List Fragment × ℕ × ℕ
  | [], _ => ([], 0, 0)
  | name :: rest, i =>
      let r := processDraws length seqs randPos rest (i + 1)
      match drawResult length (randPos i) (seqs name) name with
      | some f => (f :: r.1, r.2.1 + 1, r.2.2 + 0)
      | none => r

/-- `process_examples` over the per-class draw vectors: returns each
class's (fragments, recs_written) and the accumulated `tot_recs` that the
function reports to `_select_contigs`. -/
def processExamples (length : ℕ) (seqs : String → List Char)
    (randPos : ℕ → ℕ → ℕ) (drawsPerClass : List (List String)) :
    List (List Fragment × ℕ) × ℕ :=
  (drawsPerClass.map (fun v =>
      let r := processDraws length seqs randPos v 0
      (r.1, r.2.1)),
   (drawsPerClass.map (fun v => (processDraws length seqs randPos v 0).2.2)).sum)

/-- The directory-creation prologue of `_select_contigs` acting on a
filesystem modelled as the list of existing paths:
`makedirs(outdir)` if absent, `mkdir(testdir)` if `testdir` absent, and
then — as written in the source — `mkdir(traindir)` guarded by
`not os.path.exists(testdir)` again. -/
def selectContigsMkdirs (outdir : String) (fs : List String) : List String :=
  let fs1 := if outdir ∈ fs then fs else outdir :: fs
  let testdir := outdir ++ "/test"
  let fs2 := if testdir ∈ fs1 then fs1 else testdir :: fs1
  let traindir := outdir ++ "/train"
  if testdir ∈ fs2 then fs2 else traindir :: fs2

/-! ## Concrete instances used to exercise the embedding -/

/-- A one-record sequence index: `"a"` is a 10-base N-free sequence. -/
def exSeqs : String → List Char :=
  fun n => if n = "a" then List.replicate 10 'C' else []

/-- An offset oracle drawing the largest admissible position. -/
def wrand : ℕ → ℕ → ℕ := fun _ n => n - 1

/-- The fragment the sampler writes for `exSeqs` under `wrand` with
fragment length 5. -/
def wfrag : Fragment := ⟨"a", 4, 9, List.replicate 5 'C'⟩

/-- A 20-base sequence whose first 10-base window holds exactly one N. -/
def wcontentN : List Char := 'N' :: List.replicate 19 'A'

/-- The zero offset oracle for a single draw. -/
def wrnd0 : ℕ → ℕ := fun _ => 0

/-- A rank resolver in which every taxon has the split-level rank. -/
def wrank : ℕ → String := fun _ => "family"

/-- A two-row profile table: one class (taxid 2) with two distinct
split-level taxa. -/
def wdf : List ProfileRow :=
  [⟨"a|1|x", some 7, some 2, 100⟩, ⟨"b|3|y", some 8, some 2, 50⟩]

/-- A deterministic stand-in for the numpy draw of the held-out taxa. -/
def wpick : Finset (Option ℕ) → ℕ → Finset (Option ℕ) := fun _ _ => {some 7}

/-! ## Helper lemmas -/

lemma pyRound_nonneg {q : ℚ} (hq : 0 ≤ q) : 0 ≤ pyRound q := by
  unfold pyRound
  split
  · have h0 : (0 : ℤ) ≤ ⌊q⌋ := by
      rw [Int.le_floor]
      push_cast
      linarith
    split <;> omega
  · rw [round_eq]
    rw [Int.le_floor]
    push_cast
    linarith

lemma pyRound_le {q : ℚ} {n : ℕ} (h : q ≤ n) : pyRound q ≤ n := by
  unfold pyRound
  split
  · rename_i hfrac
    have hfl : (⌊q⌋ : ℚ) = q - 1 / 2 := by linarith
    have h2 : ⌊q⌋ < (n : ℤ) := by
      have : (⌊q⌋ : ℚ) < (n : ℚ) := by rw [hfl]; linarith
      exact_mod_cast this
    split <;> omega
  · rw [round_eq]
    have : ⌊q + 1 / 2⌋ < (n : ℤ) + 1 := by
      rw [Int.floor_lt]
      push_cast
      linarith
    omega

lemma testSize_le (df : List ProfileRow) (taxid : ℕ) {testfrac : ℚ}
    (h1 : testfrac ≤ 1) :
    testSize df taxid testfrac ≤ (classids df taxid).card := by
  unfold testSize
  rw [Int.toNat_le]
  exact pyRound_le (by
    calc ((classids df taxid).card : ℚ) * testfrac
        ≤ ((classids df taxid).card : ℚ) * 1 := by
          exact mul_le_mul_of_nonneg_left h1 (by positivity)
      _ = ((classids df taxid).card : ℚ) := by ring)

lemma pyRound_one : pyRound 1 = 1 := by
  unfold pyRound
  rw [Int.floor_one]
  rw [if_neg (by norm_num)]
  exact round_one

lemma testSize_wdf : testSize wdf 2 (1 / 2) = 1 := by
  have h2 : (classids wdf 2).card = 2 := by decide
  unfold testSize
  rw [h2]
  rw [show ((2 : ℕ) : ℚ) * (1 / 2) = 1 by norm_num]
  rw [pyRound_one]
  rfl

lemma nfrac_lt_iff {L : ℕ} (hL : 0 < L) (c : ℕ) :
    ((c : ℚ) / (L : ℚ) < 1 / 10) ↔ 10 * c < L := by
  have hL' : (0 : ℚ) < (L : ℚ) := by exact_mod_cast hL
  rw [div_lt_div_iff₀ hL' (by norm_num : (0 : ℚ) < 10), one_mul]
  constructor
  · intro h
    have h2 : (10 * c : ℚ) < (L : ℚ) := by linarith
    exact_mod_cast h2
  · intro h
    have h2 : (10 * c : ℚ) < (L : ℚ) := by exact_mod_cast h
    linarith

lemma drawResult_eq_int (L : ℕ) (hL : 0 < L) (rnd : ℕ → ℕ)
    (content : List Char) (name : String) :
    drawResult L rnd content name =
      (if L < content.length then
        (if 10 * ((pySlice content (rnd (content.length - L))
              (rnd (content.length - L) + L)).count 'N') < L then
          some ⟨name, rnd (content.length - L),
            rnd (content.length - L) + L,
            pySlice content (rnd (content.length - L))
              (rnd (content.length - L) + L)⟩
        else none)
      else none) := by
  unfold drawResult
  split
  · dsimp only
    simp only [nfrac_lt_iff hL]
  · rfl

lemma processDraws_run :
    processDraws 5 exSeqs wrand ["a"] 0 = ([wfrag], 1, 0) := by
  simp only [processDraws]
  rw [drawResult_eq_int 5 (by norm_num) (wrand 0) (exSeqs "a") "a"]
  decide

lemma processDraws_tot_eq_zero (L : ℕ) (seqs : String → List Char)
    (randPos : ℕ → ℕ → ℕ) (v : List String) (i0 : ℕ) :
    (processDraws L seqs randPos v i0).2.2 = 0 := by
  induction v generalizing i0 with
  | nil => rfl
  | cons name rest ih =>
      simp only [processDraws]
      split
      · simpa using ih (i0 + 1)
      · exact ih (i0 + 1)

lemma drawResult_eq_some {L : ℕ} {rnd : ℕ → ℕ} {content : List Char}
    {name : String} {f : Fragment}
    (h : drawResult L rnd content name = some f) :
    L < content.length ∧ f.name = name ∧
      f.pos = rnd (content.length - L) ∧ f.endpos = f.pos + L := by
  unfold drawResult at h
  split at h
  · dsimp only at h
    split at h
    · rename_i hlen _
      cases h
      exact ⟨hlen, rfl, rfl, rfl⟩
    · exact absurd h (by simp)
  · exact absurd h (by simp)

lemma processDraws_mem (L : ℕ) (seqs : String → List Char)
    (randPos : ℕ → ℕ → ℕ) (hRand : ∀ i n, 0 < n → randPos i n < n) :
    ∀ (v : List String) (i0 : ℕ) (f : Fragment),
      f ∈ (processDraws L seqs randPos v i0).1 →
      L < (seqs f.name).length ∧ f.endpos = f.pos + L ∧
        f.endpos < (seqs f.name).length := by
  intro v
  induction v with
  | nil => intro i0 f hf; simp [processDraws] at hf
  | cons name rest ih =>
      intro i0 f hf
      simp only [processDraws] at hf
      rcases hdr : drawResult L (randPos i0) (seqs name) name with _ | g
      · rw [hdr] at hf
        exact ih (i0 + 1) f hf
      · rw [hdr] at hf
        simp only [List.mem_cons] at hf
        rcases hf with rfl | hf
        · obtain ⟨hlen, hname, hpos, hend⟩ := drawResult_eq_some hdr
          subst hname
          have hposlt : f.pos < (seqs f.name).length - L := by
            rw [hpos]
            exact hRand i0 _ (Nat.sub_pos_of_lt hlen)
          exact ⟨hlen, hend, by omega⟩
        · exact ih (i0 + 1) f hf

lemma profileScan_last (l : List ℕ) (rank : ℕ → String) (s : String)
    (cls : List ℕ) :
    profileScan l rank s cls =
      (l.reverse.find? (fun i => decide (rank i = s)),
       l.reverse.find? (fun i => decide (i ∈ cls))) := by
  induction l using List.reverseRecOn with
  | nil => rfl
  | append_singleton l a ih =>
      simp only [profileScan] at ih ⊢
      rw [List.foldl_append, List.foldl_cons, List.foldl_nil, ih,
        List.reverse_append]
      simp only [List.reverse_cons, List.reverse_nil, List.nil_append,
        List.singleton_append, List.find?]
      by_cases h1 : rank a = s <;> by_cases h2 : a ∈ cls <;> simp [h1, h2]

/-! ## Claim theorems -/

/-- C1: on the merge row `seq1,0.1,0.2,0.3,0.4` with configured
kmerlength 2 and codonlength 2 (so `kend = 2`, `cend = 4`), the
serializer's row slicing `line[1:kend]` yields the kmer vector `["0.1"]`
with kmerlength − 1 elements, and `line[kend:cend]` yields
`["0.2", "0.3"]` — not `["0.1", "0.2"]` and `["0.3", "0.4"]` as the claim
states; furthermore the row never becomes a record because label
resolution of the id `seq1` (no pipe-delimited taxid field) raises a
`NameError` on the unbound name `taxid` inside the exception handler. -/
theorem C1_serializer_row_slices :
    pySlice ["seq1", "0.1", "0.2", "0.3", "0.4"] 1 2 = ["0.1"] ∧
    pySlice ["seq1", "0.1", "0.2", "0.3", "0.4"] 2 4 = ["0.2", "0.3"] ∧
    rowToRecord 2 4 [] []
        (fun seqid => labelLookup [(2, 0), (10239, 1)] seqid (fun _ => []))
        ["seq1", "0.1", "0.2", "0.3", "0.4"] =
      .error (.nameError "taxid") :=
  ⟨rfl, rfl, rfl⟩

/-- C2: when the lineage of the embedded taxid intersects the configured
class set in zero taxa or in two taxa, `_label_lookup` does not return a
random fallback label: its handler evaluates `random.randint`, and the
name `random` is unbound in the module, so the call raises `NameError`
instead. -/
theorem C2_label_fallback_raises_nameerror :
    labelLookup [(2, 0), (10239, 1)] "x|1234|acc" (fun _ => [1, 131567]) =
      .error (.nameError "random") ∧
    labelLookup [(2, 0), (10239, 1)] "x|1234|acc" (fun _ => [2, 10239]) =
      .error (.nameError "random") :=
  ⟨rfl, rfl⟩

/-- C3: for every class and every test fraction in (0,1), assuming the
numpy draw returns a subset of the class's split-level taxa of exactly the
requested size (its documented contract for `replace=False`), the split
entry satisfies test ∪ train = all observed split-level taxa,
test ∩ train = ∅, and |test| = round(total × testfrac) under
round-half-to-even; moreover the requested size never exceeds the number
of available taxa, so the numpy precondition is satisfiable. -/
theorem C3_split_plan_invariants (testfrac : ℚ) (df : List ProfileRow)
    (pick : Finset (Option ℕ) → ℕ → Finset (Option ℕ)) (taxid : ℕ)
    (h0 : 0 < testfrac) (h1 : testfrac < 1)
    (hsub : pick (classids df taxid) (testSize df taxid testfrac) ⊆
      classids df taxid)
    (hcard : (pick (classids df taxid) (testSize df taxid testfrac)).card =
      testSize df taxid testfrac) :
    (splitLevelsClass testfrac df pick taxid).test ∪
        (splitLevelsClass testfrac df pick taxid).train =
      classids df taxid ∧
    Disjoint (splitLevelsClass testfrac df pick taxid).test
      (splitLevelsClass testfrac df pick taxid).train ∧
    (splitLevelsClass testfrac df pick taxid).test.card =
      (pyRound (((classids df taxid).card : ℚ) * testfrac)).toNat ∧
    testSize df taxid testfrac ≤ (classids df taxid).card := by
  refine ⟨?_, ?_, ?_, testSize_le df taxid (le_of_lt h1)⟩
  · exact Finset.union_sdiff_of_subset hsub
  · exact Finset.disjoint_sdiff
  · exact hcard

/-- C3 witness: the hypotheses and conclusion of the split invariants at a
concrete two-taxon class with test fraction 1/2. -/
theorem C3_split_plan_invariants_witness :
    ((0 : ℚ) < 1 / 2 ∧ (1 / 2 : ℚ) < 1 ∧
      wpick (classids wdf 2) (testSize wdf 2 (1 / 2)) ⊆ classids wdf 2 ∧
      (wpick (classids wdf 2) (testSize wdf 2 (1 / 2))).card =
        testSize wdf 2 (1 / 2)) ∧
    ((splitLevelsClass (1 / 2) wdf wpick 2).test ∪
        (splitLevelsClass (1 / 2) wdf wpick 2).train = classids wdf 2 ∧
      Disjoint (splitLevelsClass (1 / 2) wdf wpick 2).test
        (splitLevelsClass (1 / 2) wdf wpick 2).train ∧
      (splitLevelsClass (1 / 2) wdf wpick 2).test.card =
        (pyRound (((classids wdf 2).card : ℚ) * (1 / 2))).toNat ∧
      testSize wdf 2 (1 / 2) ≤ (classids wdf 2).card) :=
  ⟨⟨by norm_num, by norm_num, by decide, by rw [testSize_wdf]; decide⟩,
   C3_split_plan_invariants (1 / 2) wdf wpick 2 (by norm_num) (by norm_num)
     (by decide) (by rw [testSize_wdf]; decide)⟩

/-- C4 counterexample: on the leaf-to-root lineage `[3, 5]` where both
ancestors have the split-level rank and both are members of the class set,
the scan records the second (most root-ward) ancestor `5`, not the first
(most leaf-ward) ancestor `3` as the claim states. -/
theorem C4_scan_first_match_counterexample :
    profileScan [3, 5] wrank "family" [3, 5] = (some 5, some 5) ∧
    profileScan [3, 5] wrank "family" [3, 5] ≠ (some 3, some 3) :=
  ⟨rfl, by decide⟩

/-- C4 (amended): the scan of `_profile_sequences` over the leaf-to-root
lineage records the last matching ancestor — equivalently the first match
of the root-to-leaf order — both for the split-level rank and for class
membership. -/
theorem C4_scan_records_most_rootward (revlinlist : List ℕ)
    (rank : ℕ → String) (splitlevel : String) (classes : List ℕ) :
    profileScan revlinlist rank splitlevel classes =
      (revlinlist.reverse.find? (fun i => decide (rank i = splitlevel)),
       revlinlist.reverse.find? (fun i => decide (i ∈ classes))) :=
  profileScan_last revlinlist rank splitlevel classes

/-- C4 amended-claim witness: the last-match characterization evaluated at
a concrete two-match lineage. -/
theorem C4_scan_records_most_rootward_witness :
    profileScan [3, 5] wrank "family" [3, 5] =
      ([3, 5].reverse.find? (fun i => decide (wrank i = "family")),
       [3, 5].reverse.find? (fun i => decide (i ∈ [3, 5]))) :=
  C4_scan_records_most_rootward [3, 5] wrank "family" [3, 5]

/-- C5: when the external join process exits with a nonzero status the
`subprocess.CalledProcessError` it raises does not match the function's
`except RuntimeError` clause, so `join` propagates the exception to the
caller instead of catching it and returning an unusable path. -/
theorem C5_join_failure_propagates (kmerfile codonfile dtemp : String)
    (exitcode : ℤ) (h : exitcode ≠ 0) :
    join kmerfile codonfile dtemp exitcode =
      .error (.calledProcessError exitcode) := by
  simp [join, tryExcept, subprocessRunCheck, isRuntimeError, h]

/-- C5 witness: exit status 1 propagates as `CalledProcessError`. -/
theorem C5_join_failure_propagates_witness :
    (1 : ℤ) ≠ 0 ∧
    join "kmers.csv" "codons.csv" "/tmp" 1 =
      .error (.calledProcessError 1) :=
  ⟨by decide, C5_join_failure_propagates "kmers.csv" "codons.csv" "/tmp" 1
    (by decide)⟩

/-- C6: the grand total that `process_examples` reports is always 0
(the accumulator is incremented by `tot_recs += 0`), even on a run that
demonstrably writes one fragment, so the reported test/train totals do not
equal the number of fragment records actually written. -/
theorem C6_reported_totals_zero :
    (∀ (L : ℕ) (seqs : String → List Char) (randPos : ℕ → ℕ → ℕ)
        (dpc : List (List String)),
        (processExamples L seqs randPos dpc).2 = 0) ∧
    ((processExamples 5 exSeqs wrand [["a"]]).1.map Prod.snd).sum = 1 ∧
    (processExamples 5 exSeqs wrand [["a"]]).2 = 0 := by
  refine ⟨?_, by simp [processExamples, processDraws_run],
    by simp [processExamples, processDraws_run]⟩
  intro L seqs randPos dpc
  simp only [processExamples]
  refine List.sum_eq_zero ?_
  intro x hx
  rw [List.mem_map] at hx
  obtain ⟨v, _, rfl⟩ := hx
  exact processDraws_tot_eq_zero L seqs randPos v 0

/-- C7: under the contract of `numpy.random.choice(n)` (a value in
`[0, n)`), every fragment the sampling loop writes comes from a source
sequence strictly longer than the fragment length L — so a draw of a
sequence with length ≤ L, including the boundary length = L, writes
nothing — and its window `[pos, pos + L)` ends strictly before the end of
the source sequence. -/
theorem C7_fragment_strictly_inside (L : ℕ) (seqs : String → List Char)
    (randPos : ℕ → ℕ → ℕ) (v : List String) (i0 : ℕ) (f : Fragment)
    (hRand : ∀ i n, 0 < n → randPos i n < n)
    (hf : f ∈ (processDraws L seqs randPos v i0).1) :
    L < (seqs f.name).length ∧ f.endpos = f.pos + L ∧
      f.endpos < (seqs f.name).length :=
  processDraws_mem L seqs randPos hRand v i0 f hf

/-- C7 witness: the fragment written for the 10-base sequence under the
maximal-offset oracle is strictly inside its source. -/
theorem C7_fragment_strictly_inside_witness :
    wfrag ∈ (processDraws 5 exSeqs wrand ["a"] 0).1 ∧
    (5 < (exSeqs wfrag.name).length ∧ wfrag.endpos = wfrag.pos + 5 ∧
      wfrag.endpos < (exSeqs wfrag.name).length) :=
  ⟨by simp [processDraws_run],
   C7_fragment_strictly_inside 5 exSeqs wrand ["a"] 0 wfrag
     (fun _ n h => Nat.sub_lt h Nat.one_pos) (by simp [processDraws_run])⟩

/-- C8: for a drawn sequence long enough to yield a window, the fragment
is written iff the window's ambiguous-base fraction `count/L` is strictly
below 1/10, and a window whose fraction equals exactly 1/10 produces no
fragment for that draw. -/
theorem C8_nfrac_strict_threshold (L : ℕ) (rnd : ℕ → ℕ)
    (content : List Char) (name : String) (hlen : L < content.length) :
    ((drawResult L rnd content name).isSome ↔
      ((pySlice content (rnd (content.length - L))
          (rnd (content.length - L) + L)).count 'N' : ℚ) / (L : ℚ) <
        1 / 10) ∧
    (((pySlice content (rnd (content.length - L))
          (rnd (content.length - L) + L)).count 'N' : ℚ) / (L : ℚ) = 1 / 10 →
      drawResult L rnd content name = none) := by
  unfold drawResult
  rw [if_pos hlen]
  dsimp only
  constructor
  · split
    · rename_i h; exact iff_of_true rfl h
    · rename_i h; exact iff_of_false (by simp) h
  · intro heq
    rw [if_neg (by rw [heq]; exact lt_irrefl _)]

/-- C8 witness: a 20-base sequence whose selected 10-base window holds
exactly one N sits exactly at the threshold and is rejected. -/
theorem C8_nfrac_strict_threshold_witness :
    10 < wcontentN.length ∧
    (((drawResult 10 wrnd0 wcontentN "n").isSome ↔
        ((pySlice wcontentN (wrnd0 (wcontentN.length - 10))
            (wrnd0 (wcontentN.length - 10) + 10)).count 'N' : ℚ) /
            (10 : ℚ) < 1 / 10) ∧
      (((pySlice wcontentN (wrnd0 (wcontentN.length - 10))
            (wrnd0 (wcontentN.length - 10) + 10)).count 'N' : ℚ) /
            (10 : ℚ) = 1 / 10 →
        drawResult 10 wrnd0 wcontentN "n" = none)) :=
  ⟨by decide, C8_nfrac_strict_threshold 10 wrnd0 wcontentN "n" (by decide)⟩

/-- C9: starting from a filesystem in which the output tree is absent, the
directory-creation prologue of `_select_contigs` creates `<outdir>` and
`<outdir>/test` but never `<outdir>/train`, because the second existence
check tests `testdir` (just created) instead of `traindir`. -/
theorem C9_train_directory_missing :
    "out" ∈ selectContigsMkdirs "out" [] ∧
    "out" ++ "/test" ∈ selectContigsMkdirs "out" [] ∧
    "out" ++ "/train" ∉ selectContigsMkdirs "out" [] := by
  refine ⟨by decide, by decide, by decide⟩

/-- C10: on an empty merge file the serializer writes no records and then
raises `NameError` at the final log statement, which references the loop
counter `i` that `enumerate` never bound. -/
theorem C10_empty_mergefile_raises
    (recordOf : List String → Except PyExc TFRecord) :
    dataToTfrecords recordOf [] = .error (.nameError "i") :=
  rfl

/-- C10 witness: the empty-merge-file failure with the concrete row
processor of the pipeline. -/
theorem C10_empty_mergefile_raises_witness :
    dataToTfrecords
        (rowToRecord 2 4 [] []
          (fun seqid => labelLookup [(2, 0), (10239, 1)] seqid (fun _ => [])))
        [] = .error (.nameError "i") :=
  C10_empty_mergefile_raises _

end Vica
